import Mathlib

/-!
Verification of the leaderboard bot core (`bot.py`).

Shallow embedding conventions:
* Python floats are modelled as `ℚ` (the values involved are small exact decimals).
* A JSON field value is a `FieldVal`: present and numeric (`num`), absent from the
  record (`missing`), or present but not convertible by `float()` (`nonNumeric`).
* Python dicts (which preserve insertion order) are modelled as association lists;
  `dictSet` reproduces `d[k] = v`: update in place when the key exists, append otherwise.
* `message.edit` / `channel.send` effects are recorded in output lists; the source
  discards edit outcomes (bare `except`), so outcomes never influence state.
-/

namespace AffiliateBot

/-- A JSON field value as seen by `entry.get(...)` / `float(...)`. -/
inductive FieldVal
  | missing
  | num (q : ℚ)
  | nonNumeric
  deriving DecidableEq

/-- One raw API record. The code reads only `name` and `deposited`;
`wagered` is carried by the API response but never read by `bot.py`. -/
structure Entry where
  name : Option String
  deposited : FieldVal
  wagered : FieldVal
  deriving DecidableEq

/-- `float(entry.get('deposited', 0))`: an absent field becomes the default `0`,
a numeric value converts, a non-numeric value raises (`ValueError`/`TypeError`). -/
def pyFloatGet : FieldVal → Except Unit ℚ
  | .missing => .ok 0
  | .num q => .ok q
  | .nonNumeric => .error ()

/-- `entry.get('name', 'Unknown')` (bot.py lines 121, 184). -/
def pyName (e : Entry) : String := e.name.getD "Unknown"

/-- Association-list lookup, first match wins (Python dict membership/read). -/
def dictLookup {κ β : Type} [DecidableEq κ] (k : κ) : List (κ × β) → Option β
  | [] => none
  | (k', v) :: rest => if k' = k then some v else dictLookup k rest

/-- Python dict assignment `d[k] = v`: overwrite in place when present,
append when absent (dicts preserve insertion order). -/
def dictSet {κ β : Type} [DecidableEq κ] (k : κ) (v : β) : List (κ × β) → List (κ × β)
  | [] => [(k, v)]
  | (k', v') :: rest => if k' = k then (k, v) :: rest else (k', v') :: dictSet k v rest

/-- The filtering comprehension in `fetch_affiliate_data` (bot.py lines 90-95):
`[entry for entry in entries if float(entry.get('deposited', 0)) > 0]`.
It runs inside the surrounding `try`, so the first non-numeric `deposited`
raises and the whole fetch returns `None` — modelled as `none`. -/
def fetchFilter : List Entry → Option (List Entry)
  | [] => some []
  | e :: rest =>
    match pyFloatGet e.deposited with
    | .error _ => none
    | .ok v => (fetchFilter rest).map (fun r => if 0 < v then e :: r else r)

/-- `fetch_affiliate_data` (bot.py lines 57-105): the HTTP layer either fails
(non-200 status or exception → `None`, modelled by the `api` oracle returning
`none`) or yields raw entries which are then zero-deposit filtered. -/
def fetch_affiliate_data (api : ℤ → ℤ → Option (List Entry)) (startTime endTime : ℤ) :
    Option (List Entry) :=
  match api startTime endTime with
  | none => none
  | some raw => fetchFilter raw

/-- The aggregation loop of `create_leaderboard_embed` (bot.py lines 119-130):
skip entries with `deposited <= 0`, otherwise overwrite the user's entry
(`user_stats[username]['deposits'] = deposited` — last write wins).
A non-numeric `deposited` raises out of the loop (caught by the caller). -/
def aggLoopLB : List Entry → List (String × ℚ) → Except Unit (List (String × ℚ))
  | [], d => .ok d
  | e :: rest, d =>
    match pyFloatGet e.deposited with
    | .error u => .error u
    | .ok v => if v ≤ 0 then aggLoopLB rest d else aggLoopLB rest (dictSet (pyName e) v d)

/-- `user_stats` as built by `create_leaderboard_embed`. -/
def user_stats_lb (entries : List Entry) : Except Unit (List (String × ℚ)) :=
  aggLoopLB entries []

/-- `sorted(user_stats.items(), key=..., reverse=True)[:10]` (bot.py 143-145, 211-213):
CPython's sort is stable, and `reverse=True` keeps ties in insertion order, which is
exactly `List.insertionSort` with the "greater-or-equal on the key" relation. -/
def pyTop10 {α β : Type} [LinearOrder β] (key : α → β) (l : List α) : List α :=
  (List.insertionSort (fun a b => key b ≤ key a) l).take 10

/-- The observable content of the leaderboard embed: either the "No data available"
variant (bot.py 133-140) or the ranked top-10 list (bot.py 142-166). Pure text
formatting (title, remaining time, medals) is elided. -/
inductive EmbedData
  | noData
  | ranked (top : List (String × ℚ))
  deriving DecidableEq

/-- `create_leaderboard_embed` (bot.py lines 107-175). -/
def create_leaderboard_embed (entries : List Entry) : Except Unit EmbedData :=
  match user_stats_lb entries with
  | .error u => .error u
  | .ok d => if d = [] then .ok .noData else .ok (.ranked (pyTop10 (fun p => p.2) d))

/-- Per-user stats of the tickets leaderboard (bot.py 191-198). -/
structure TStat where
  deposits : ℚ
  tickets : ℤ
  deriving DecidableEq

/-- `int(deposited / 10)` (bot.py 194): Python `int()` truncates toward zero,
which equals `Int.floor` on the positive values reachable here (the loop skips
`deposited <= 0`). -/
def ticketsOf (v : ℚ) : ℤ := Rat.floor (v / 10)

/-- The aggregation loop of `create_tickets_embed` (bot.py lines 182-198):
skip `deposited <= 0`; both the fresh-insert and the existing-user branch store
`{'deposits': deposited, 'tickets': int(deposited / 10)}` — last write wins. -/
def aggLoopT : List Entry → List (String × TStat) → Except Unit (List (String × TStat))
  | [], d => .ok d
  | e :: rest, d =>
    match pyFloatGet e.deposited with
    | .error u => .error u
    | .ok v =>
      if v ≤ 0 then aggLoopT rest d
      else aggLoopT rest (dictSet (pyName e) ⟨v, ticketsOf v⟩ d)

/-- `user_stats` as built by `create_tickets_embed`. -/
def user_stats_tickets (entries : List Entry) : Except Unit (List (String × TStat)) :=
  aggLoopT entries []

/-- `total_deposits = sum(stats['deposits'] for _, stats in user_stats.items())`
(bot.py 233). -/
def total_deposits (d : List (String × TStat)) : ℚ :=
  (d.map (fun p => p.2.deposits)).sum

/-- `total_tickets = sum(stats['tickets'] for _, stats in user_stats.items())`
(bot.py 234). -/
def total_tickets (d : List (String × TStat)) : ℤ :=
  (d.map (fun p => p.2.tickets)).sum

/-- Observable content of the tickets embed (bot.py 200-253): the "no data"
variant, or the total-stats field plus the top-10 list sorted by tickets. -/
inductive TicketsEmbed
  | noData
  | ranked (totD : ℚ) (totT : ℤ) (top : List (String × TStat))
  deriving DecidableEq

/-- `create_tickets_embed` (bot.py lines 177-257). -/
def create_tickets_embed (entries : List Entry) : Except Unit TicketsEmbed :=
  match user_stats_tickets entries with
  | .error u => .error u
  | .ok d =>
    if d = [] then .ok .noData
    else .ok (.ranked (total_deposits d) (total_tickets d)
      (pyTop10 (fun p => p.2.tickets) d))

/-- One session tuple, as stored in `active_leaderboards[channel_id] =
(message, end_date, days, start_time, end_time)` (bot.py 347, 398).
The message artifact is identified by `messageId`; timestamps are
epoch milliseconds as integers. -/
structure Session where
  messageId : ℕ
  endDate : ℤ
  days : ℤ
  startTime : ℤ
  endTime : ℤ
  deriving DecidableEq

/-- `client.active_leaderboards`, a dict from channel id to session tuple. -/
abbrev Store := List (ℕ × Session)

/-- Payload of a `message.edit` call issued by the update loop: either the
terminal notice (bot.py 281) or a refreshed leaderboard embed (bot.py 292). -/
inductive EditPayload
  | endedNotice
  | embedPayload (e : EmbedData)
  deriving DecidableEq

/-- Environment of one scheduler tick: the current time, which channels
`get_channel` resolves, the HTTP fetch oracle, and the outcome of each
`message.edit` (the source catches and discards edit failures — bare
`except` at 283 and `except ... logger.error` at 294 — so `editOk`
never influences any state; it is kept to express that explicitly). -/
structure TickEnv where
  now : ℤ
  channelExists : ℕ → Bool
  api : ℤ → ℤ → Option (List Entry)
  editOk : ℕ → Bool

/-- The per-session body of `update_leaderboards` (bot.py 264-298).
Returns (marked for removal?, list of edit attempts made for this session).
* channel missing → mark for removal, no edit (267-270);
* `current_time > end_date` → mark for removal, one best-effort terminal
  notice edit whose outcome is ignored (278-285);
* otherwise fetch; on fetch failure (`None`) do nothing this tick (288-289);
* on fetch success build the embed — an exception there is caught by the
  outer `except` (297-298) leaving the session untouched — and make exactly
  one `message.edit` attempt whose failure is only logged (291-295). -/
def tickSession (env : TickEnv) (cid : ℕ) (s : Session) : Bool × List (ℕ × EditPayload) :=
  if ¬ env.channelExists cid then (true, [])
  else if s.endDate < env.now then (true, [(s.messageId, .endedNotice)])
  else
    match fetch_affiliate_data env.api s.startTime s.endTime with
    | none => (false, [])
    | some entries =>
      match create_leaderboard_embed entries with
      | .error _ => (false, [])
      | .ok e => (false, [(s.messageId, .embedPayload e)])

/-- Result of one tick: the store after removals, the `message.edit` attempts
made (in iteration order), and the new artifacts posted (the update loop never
posts — there is no recreation path in `bot.py`). -/
structure TickResult where
  store : Store
  edits : List (ℕ × EditPayload)
  posts : List ℕ
  deriving DecidableEq

/-- `update_leaderboards` (bot.py 259-304): iterate a snapshot
(`list(self.active_leaderboards.items())`), collect `channels_to_remove`,
then delete those channels from the live store after the loop (300-304). -/
def update_leaderboards (env : TickEnv) (store : Store) : TickResult :=
  let results := store.map (fun p => (p.1, tickSession env p.1 p.2))
  let toRemove := (results.filter (fun r => r.2.1)).map (fun r => r.1)
  { store := store.filter (fun p => ¬ p.1 ∈ toRemove)
    edits := (results.map (fun r => r.2.2)).flatten
    posts := [] }

/-- Result of a session-start slash command. -/
inductive CmdResult
  | invalidDays
  | alreadyActive
  | fetchFailed
  | started (msgId : ℕ)
  | internalError
  deriving DecidableEq

/-- Observable outcome of a command: its reply class, the store afterwards,
how many HTTP fetches were made, and the messages posted to the channel. -/
structure CmdOut where
  result : CmdResult
  store : Store
  fetchCalls : ℕ
  posted : List ℕ
  deriving DecidableEq

/-- Milliseconds in a day (`datetime.timedelta(days=1)`). -/
def msPerDay : ℤ := 86400000

/-- The `/leaderboard` command (bot.py 315-355):
1. reject `days <= 0 or days > 30` before anything else (319-321);
2. reject if the channel already has an active leaderboard, leaving the
   store untouched (323-325);
3. compute the fixed window and fetch once; on `None` reply with a failure
   and create nothing (337-341);
4. build the embed (an exception is caught at 353-355, creating nothing),
   post the message, and store the session tuple (343-347). -/
def leaderboard (store : Store) (cid : ℕ) (days : ℤ) (nowMs : ℤ)
    (api : ℤ → ℤ → Option (List Entry)) (freshMsgId : ℕ) : CmdOut :=
  if days ≤ 0 ∨ 30 < days then ⟨.invalidDays, store, 0, []⟩
  else if (dictLookup cid store).isSome then ⟨.alreadyActive, store, 0, []⟩
  else
    let startTime := nowMs
    let endTime := nowMs + days * msPerDay
    let endDate := nowMs + days * msPerDay
    match fetch_affiliate_data api startTime endTime with
    | none => ⟨.fetchFailed, store, 1, []⟩
    | some entries =>
      match create_leaderboard_embed entries with
      | .error _ => ⟨.internalError, store, 1, []⟩
      | .ok _ =>
        ⟨.started freshMsgId,
          dictSet cid ⟨freshMsgId, endDate, days, startTime, endTime⟩ store,
          1, [freshMsgId]⟩

/-- `2024-11-21 18:00 UTC` in epoch milliseconds (bot.py 372). -/
def ticketsStartMs : ℤ := 1732212000000

/-- `2024-11-28 18:00 UTC` in epoch milliseconds (bot.py 373). -/
def ticketsEndMs : ℤ := 1732816800000

/-- The `/tickets` command (bot.py 357-405): same guard structure as
`/leaderboard` — day-bound check first (361-363), duplicate-channel check
second (365-367) — then a fixed hardcoded window, `days` recomputed as the
window length in days (383), one fetch (390-393), tickets embed, post, store. -/
def tickets (store : Store) (cid : ℕ) (days : ℤ)
    (api : ℤ → ℤ → Option (List Entry)) (freshMsgId : ℕ) : CmdOut :=
  if days ≤ 0 ∨ 30 < days then ⟨.invalidDays, store, 0, []⟩
  else if (dictLookup cid store).isSome then ⟨.alreadyActive, store, 0, []⟩
  else
    let displayDays : ℤ := (ticketsEndMs - ticketsStartMs) / msPerDay
    match fetch_affiliate_data api ticketsStartMs ticketsEndMs with
    | none => ⟨.fetchFailed, store, 1, []⟩
    | some entries =>
      match create_tickets_embed entries with
      | .error _ => ⟨.internalError, store, 1, []⟩
      | .ok _ =>
        ⟨.started freshMsgId,
          dictSet cid ⟨freshMsgId, ticketsEndMs, displayDays, ticketsStartMs, ticketsEndMs⟩ store,
          1, [freshMsgId]⟩

/-- The numeric value `float(entry.get('deposited', 0))` yields when it does
not raise (used to phrase filtering lemmas). -/
def depositedVal (e : Entry) : ℚ :=
  match pyFloatGet e.deposited with
  | .ok v => v
  | .error _ => 0

/-- The accumulation policy claimed for the code, written directly from its
statement: the value recorded for subject `n` is the deposit of the **last**
processed entry with that name that passes the positive-deposit filter
(`none` when no such entry exists). Compared against the aggregation loops. -/
def lastPositiveDeposit : List Entry → String → Option ℚ
  | [], _ => none
  | e :: rest, n =>
    match lastPositiveDeposit rest n with
    | some v => some v
    | none =>
      match pyFloatGet e.deposited with
      | .ok v => if pyName e = n ∧ 0 < v then some v else none
      | .error _ => none

/-- Scenario entry `{bob, wager: 50, deposit: 20}`. -/
def bobEntry : Entry := ⟨some "bob", .num 20, .num 50⟩

/-- Scenario entry `{alice, wager: 100, deposit: 0}`. -/
def aliceEntry : Entry := ⟨some "alice", .num 0, .num 100⟩

/-- The entry sequence of the aggregation scenario. -/
def c3Entries : List Entry := [aliceEntry, bobEntry]

/-- A record whose `deposited` field is present but not numeric:
`float()` raises on it. -/
def badEntry : Entry := ⟨some "carol", .nonNumeric, .missing⟩

/-- A batch holding one well-formed and one malformed record. -/
def c6Entries : List Entry := [bobEntry, badEntry]

/-- Two entries for the same subject with different positive deposits. -/
def c10Entries : List Entry :=
  [⟨some "x", .num 10, .missing⟩, ⟨some "x", .num 25, .missing⟩]

/-- A stored session: artifact message 5, expiry 1000, window [0, 500]. -/
def demoSession : Session := ⟨5, 1000, 7, 0, 500⟩

/-- A one-session store on channel 1. -/
def demoStore : Store := [(1, demoSession)]

/-- Tick environment before expiry (`now = 10 < 1000`) whose fetch succeeds
with `[bobEntry]` and whose every `message.edit` fails (transiently). -/
def c1Env : TickEnv := ⟨10, fun _ => true, fun _ _ => some [bobEntry], fun _ => false⟩

/-- Tick environment after expiry (`now = 2000 > 1000`); edits fail. -/
def c2Env : TickEnv := ⟨2000, fun _ => true, fun _ _ => some [bobEntry], fun _ => false⟩

/-- Tick environment before expiry whose HTTP fetch fails (`None`). -/
def c8Env : TickEnv := ⟨10, fun _ => true, fun _ _ => none, fun _ => true⟩

/-- A fetch oracle that always fails. -/
def apiNone : ℤ → ℤ → Option (List Entry) := fun _ _ => none

/-- Equality of `Except` results is decidable componentwise (used to evaluate
the embedded functions on concrete inputs). -/
instance exceptDecEq {α β : Type} [DecidableEq α] [DecidableEq β] :
    DecidableEq (Except α β) := fun a b =>
  match a, b with
  | .error x, .error y =>
    if h : x = y then .isTrue (by rw [h]) else .isFalse (by intro hc; cases hc; exact h rfl)
  | .error _, .ok _ => .isFalse (by intro hc; cases hc)
  | .ok _, .error _ => .isFalse (by intro hc; cases hc)
  | .ok x, .ok y =>
    if h : x = y then .isTrue (by rw [h]) else .isFalse (by intro hc; cases hc; exact h rfl)

/-! ### Dictionary lemmas -/

theorem dictLookup_mem {κ β : Type} [DecidableEq κ] {k : κ} {v : β} :
    ∀ {d : List (κ × β)}, dictLookup k d = some v → (k, v) ∈ d := by
  intro d
  induction d with
  | nil => intro h; simp [dictLookup] at h
  | cons p rest ih =>
    intro h
    rw [dictLookup] at h
    by_cases hk : p.1 = k
    · simp only [hk, if_true, Option.some.injEq] at h
      have hp : p = (k, v) := by
        cases p
        simp only [Prod.mk.injEq]
        exact ⟨hk, h⟩
      rw [hp]
      exact List.mem_cons_self _ _
    · simp only [hk, if_false] at h
      exact List.mem_cons_of_mem _ (ih h)

theorem keys_nodup_mem_unique {κ β : Type} [DecidableEq κ] {k : κ} {v v' : β} :
    ∀ {d : List (κ × β)}, (d.map Prod.fst).Nodup → (k, v) ∈ d → (k, v') ∈ d → v = v' := by
  intro d
  induction d with
  | nil => intro _ h; simp at h
  | cons p rest ih =>
    intro hnd h1 h2
    simp only [List.map_cons, List.nodup_cons] at hnd
    rcases List.mem_cons.mp h1 with e1 | m1
    · rcases List.mem_cons.mp h2 with e2 | m2
      · rw [← e1] at e2; exact (Prod.mk.injEq _ _ _ _).mp e2.symm |>.2
      · exact absurd (List.mem_map_of_mem Prod.fst m2)
          (by rw [← e1] at hnd; exact hnd.1)
    · rcases List.mem_cons.mp h2 with e2 | m2
      · exact absurd (List.mem_map_of_mem Prod.fst m1)
          (by rw [← e2] at hnd; exact hnd.1)
      · exact ih hnd.2 m1 m2

theorem dictLookup_filter_keep {κ β : Type} [DecidableEq κ] {k : κ} {q : κ × β → Bool}
    (hq : ∀ v, q (k, v) = true) :
    ∀ d : List (κ × β), dictLookup k (d.filter q) = dictLookup k d := by
  intro d
  induction d with
  | nil => rfl
  | cons p rest ih =>
    by_cases hk : p.1 = k
    · have : q p = true := by rw [show p = (k, p.2) from by rw [← hk]]; exact hq p.2
      simp [List.filter_cons, this, dictLookup, hk, ih]
    · cases hqp : q p with
      | true => simp [List.filter_cons, hqp, dictLookup, hk, ih]
      | false => simp [List.filter_cons, hqp, dictLookup, hk, ih]

theorem dictLookup_filter_drop {κ β : Type} [DecidableEq κ] {k : κ} {q : κ × β → Bool}
    (hq : ∀ v, q (k, v) = false) :
    ∀ d : List (κ × β), dictLookup k (d.filter q) = none := by
  intro d
  induction d with
  | nil => rfl
  | cons p rest ih =>
    by_cases hk : p.1 = k
    · have : q p = false := by rw [show p = (k, p.2) from by rw [← hk]]; exact hq p.2
      simp [List.filter_cons, this, ih]
    · cases hqp : q p with
      | true => simp [List.filter_cons, hqp, dictLookup, hk, ih]
      | false => simp [List.filter_cons, hqp, ih]

/-! ### Well-formedness transported through the fetch filter -/

theorem fetchFilter_all_ok :
    ∀ {raw entries : List Entry}, fetchFilter raw = some entries →
      ∀ e ∈ entries, ∃ v, pyFloatGet e.deposited = .ok v := by
  intro raw
  induction raw with
  | nil =>
    intro entries h
    rw [fetchFilter] at h
    cases h
    intro e he; simp at he
  | cons x rest ih =>
    intro entries h
    rw [fetchFilter] at h
    cases hx : pyFloatGet x.deposited with
    | error u => rw [hx] at h; cases h
    | ok v =>
      rw [hx] at h
      cases hr : fetchFilter rest with
      | none => rw [hr] at h; cases h
      | some r =>
        rw [hr] at h
        replace h : (if 0 < v then x :: r else r) = entries := by
          simpa using h
        intro e he
        by_cases hv : (0 : ℚ) < v
        · rw [if_pos hv] at h
          rw [← h] at he
          rcases List.mem_cons.mp he with rfl | hm
          · exact ⟨v, hx⟩
          · exact ih hr e hm
        · rw [if_neg hv] at h
          rw [← h] at he
          exact ih hr e he

theorem aggLoopLB_isOk :
    ∀ {entries : List Entry}, (∀ e ∈ entries, ∃ v, pyFloatGet e.deposited = .ok v) →
      ∀ d0, ∃ d, aggLoopLB entries d0 = .ok d := by
  intro entries
  induction entries with
  | nil => intro _ d0; exact ⟨d0, rfl⟩
  | cons e rest ih =>
    intro h d0
    obtain ⟨v, hv⟩ := h e (List.mem_cons_self e rest)
    have hrest : ∀ x ∈ rest, ∃ w, pyFloatGet x.deposited = .ok w :=
      fun x hx => h x (List.mem_cons_of_mem e hx)
    rw [aggLoopLB, hv]
    simp only
    by_cases hle : v ≤ 0
    · rw [if_pos hle]; exact ih hrest d0
    · rw [if_neg hle]; exact ih hrest _

theorem create_leaderboard_embed_ok {api : ℤ → ℤ → Option (List Entry)} {t1 t2 : ℤ}
    {entries : List Entry} (h : fetch_affiliate_data api t1 t2 = some entries) :
    ∃ e, create_leaderboard_embed entries = .ok e := by
  rw [fetch_affiliate_data] at h
  cases hapi : api t1 t2 with
  | none => rw [hapi] at h; cases h
  | some raw =>
    rw [hapi] at h
    have hwf := fetchFilter_all_ok h
    obtain ⟨d, hd⟩ := aggLoopLB_isOk hwf []
    rw [create_leaderboard_embed, user_stats_lb, hd]
    by_cases hnil : d = []
    · exact ⟨.noData, by simp only [if_pos hnil]⟩
    · exact ⟨.ranked (pyTop10 (fun p => p.2) d), by simp only [if_neg hnil]⟩

theorem dictLookup_dictSet_self {κ β : Type} [DecidableEq κ] {k : κ} {v : β} :
    ∀ d : List (κ × β), dictLookup k (dictSet k v d) = some v := by
  intro d
  induction d with
  | nil => simp [dictSet, dictLookup]
  | cons p rest ih =>
    by_cases hk : p.1 = k
    · simp [dictSet, hk, dictLookup]
    · simp [dictSet, hk, dictLookup, ih]

theorem dictLookup_dictSet_ne {κ β : Type} [DecidableEq κ] {k k' : κ} {v : β}
    (hne : k' ≠ k) :
    ∀ d : List (κ × β), dictLookup k (dictSet k' v d) = dictLookup k d := by
  intro d
  induction d with
  | nil => simp [dictSet, dictLookup, hne]
  | cons p rest ih =>
    by_cases hk : p.1 = k'
    · simp [dictSet, hk, dictLookup, hne, ih]
    · simp only [dictSet, hk, if_false]
      rw [dictLookup, dictLookup, ih]

/-! ### The zero-deposit filter and malformed records -/

theorem aggLoopT_filter :
    ∀ (entries : List Entry) (d : List (String × TStat)),
      (∀ e ∈ entries, ∃ v, pyFloatGet e.deposited = .ok v) →
      aggLoopT entries d =
        aggLoopT (entries.filter fun e => decide (0 < depositedVal e)) d := by
  intro entries
  induction entries with
  | nil => intro d _; rfl
  | cons e rest ih =>
    intro d h
    obtain ⟨v, hv⟩ := h e (List.mem_cons_self e rest)
    have hrest : ∀ x ∈ rest, ∃ w, pyFloatGet x.deposited = .ok w :=
      fun x hx => h x (List.mem_cons_of_mem e hx)
    have hval : depositedVal e = v := by rw [depositedVal, hv]
    rw [aggLoopT, hv]
    simp only
    by_cases hle : v ≤ 0
    · rw [if_pos hle, List.filter_cons]
      have : (decide (0 < depositedVal e)) = false := by
        simp [hval]; linarith
      rw [this]
      simp only [Bool.false_eq_true, if_false]
      exact ih d hrest
    · rw [if_neg hle, List.filter_cons]
      have : (decide (0 < depositedVal e)) = true := by
        simp [hval]; linarith
      rw [this]
      simp only [if_true]
      rw [aggLoopT, hv]
      simp only [if_neg hle]
      exact ih _ hrest

theorem fetchFilter_wellformed :
    ∀ entries : List Entry, (∀ e ∈ entries, e.deposited ≠ FieldVal.nonNumeric) →
      fetchFilter entries = some (entries.filter fun e => decide (0 < depositedVal e)) := by
  intro entries
  induction entries with
  | nil => intro _; rfl
  | cons e rest ih =>
    intro h
    have hnn : e.deposited ≠ FieldVal.nonNumeric := h e (List.mem_cons_self e rest)
    have hrest := ih (fun x hx => h x (List.mem_cons_of_mem e hx))
    have hok : pyFloatGet e.deposited = .ok (depositedVal e) := by
      cases hd : e.deposited with
      | missing => rw [depositedVal, hd]; rfl
      | num q => rw [depositedVal, hd]; rfl
      | nonNumeric => exact absurd hd hnn
    rw [fetchFilter, hok, hrest, List.filter_cons]
    by_cases hv : (0 : ℚ) < depositedVal e
    · simp [hv]
    · simp [hv]

theorem fetchFilter_aborts :
    ∀ entries : List Entry, (∃ e ∈ entries, e.deposited = FieldVal.nonNumeric) →
      fetchFilter entries = none := by
  intro entries
  induction entries with
  | nil => intro h; simp at h
  | cons e rest ih =>
    intro h
    rw [fetchFilter]
    cases hd : pyFloatGet e.deposited with
    | error u => rfl
    | ok v =>
      have hnn : e.deposited ≠ FieldVal.nonNumeric := by
        intro hc
        rw [pyFloatGet.eq_def, hc] at hd
        cases hd
      rcases h with ⟨x, hx, hxd⟩
      rcases List.mem_cons.mp hx with rfl | hm
      · exact absurd hxd hnn
      · rw [ih ⟨x, hm, hxd⟩]
        rfl

/-! ### Last-write-wins accumulation -/

theorem aggLoopLB_lookup :
    ∀ (entries : List Entry) (d0 d : List (String × ℚ)) (n : String),
      aggLoopLB entries d0 = .ok d →
      dictLookup n d =
        match lastPositiveDeposit entries n with
        | some v => some v
        | none => dictLookup n d0 := by
  intro entries
  induction entries with
  | nil =>
    intro d0 d n h
    rw [aggLoopLB] at h
    cases h
    rfl
  | cons e rest ih =>
    intro d0 d n h
    rw [aggLoopLB] at h
    cases hv : pyFloatGet e.deposited with
    | error u => rw [hv] at h; cases h
    | ok v =>
      rw [hv] at h
      simp only at h
      rw [lastPositiveDeposit, hv]
      by_cases hle : v ≤ 0
      · rw [if_pos hle] at h
        have hnp : ¬ (pyName e = n ∧ 0 < v) := by
          intro hc; linarith [hc.2]
        simp only [if_neg hnp]
        have := ih d0 d n h
        cases hrest : lastPositiveDeposit rest n with
        | some w => rw [hrest] at this; simpa using this
        | none => rw [hrest] at this; simpa using this
      · rw [if_neg hle] at h
        have := ih _ d n h
        cases hrest : lastPositiveDeposit rest n with
        | some w => rw [hrest] at this; simp only; exact this
        | none =>
          rw [hrest] at this
          simp only
          by_cases hn : pyName e = n
          · have hpos : (0 : ℚ) < v := lt_of_not_ge hle
            rw [if_pos ⟨hn, hpos⟩, this, hn, dictLookup_dictSet_self]
          · rw [if_neg (fun hc => hn hc.1), this, dictLookup_dictSet_ne hn]

theorem aggLoopT_lookup :
    ∀ (entries : List Entry) (d0 d : List (String × TStat)) (n : String),
      aggLoopT entries d0 = .ok d →
      dictLookup n d =
        match lastPositiveDeposit entries n with
        | some v => some ⟨v, ticketsOf v⟩
        | none => dictLookup n d0 := by
  intro entries
  induction entries with
  | nil =>
    intro d0 d n h
    rw [aggLoopT] at h
    cases h
    rfl
  | cons e rest ih =>
    intro d0 d n h
    rw [aggLoopT] at h
    cases hv : pyFloatGet e.deposited with
    | error u => rw [hv] at h; cases h
    | ok v =>
      rw [hv] at h
      simp only at h
      rw [lastPositiveDeposit, hv]
      by_cases hle : v ≤ 0
      · rw [if_pos hle] at h
        have hnp : ¬ (pyName e = n ∧ 0 < v) := by
          intro hc; linarith [hc.2]
        simp only [if_neg hnp]
        have := ih d0 d n h
        cases hrest : lastPositiveDeposit rest n with
        | some w => rw [hrest] at this; simpa using this
        | none => rw [hrest] at this; simpa using this
      · rw [if_neg hle] at h
        have := ih _ d n h
        cases hrest : lastPositiveDeposit rest n with
        | some w => rw [hrest] at this; simp only; exact this
        | none =>
          rw [hrest] at this
          simp only
          by_cases hn : pyName e = n
          · have hpos : (0 : ℚ) < v := lt_of_not_ge hle
            rw [if_pos ⟨hn, hpos⟩, this, hn, dictLookup_dictSet_self]
          · rw [if_neg (fun hc => hn hc.1), this, dictLookup_dictSet_ne hn]

/-! ### Scheduler-tick store bookkeeping -/

theorem update_leaderboards_posts (env : TickEnv) (store : Store) :
    (update_leaderboards env store).posts = [] := rfl

theorem update_leaderboards_removes {env : TickEnv} {store : Store} {cid : ℕ} {s : Session}
    (hs : dictLookup cid store = some s) (hrm : (tickSession env cid s).1 = true) :
    dictLookup cid (update_leaderboards env store).store = none := by
  have hmem : (cid, s) ∈ store := dictLookup_mem hs
  rw [update_leaderboards]
  simp only
  apply dictLookup_filter_drop
  intro v
  simp only [decide_eq_false_iff_not, Decidable.not_not]
  refine List.mem_map.mpr ⟨(cid, tickSession env cid s), ?_, rfl⟩
  refine List.mem_filter.mpr ⟨?_, hrm⟩
  exact List.mem_map.mpr ⟨(cid, s), hmem, rfl⟩

theorem update_leaderboards_keeps {env : TickEnv} {store : Store} {cid : ℕ} {s : Session}
    (hnd : (store.map Prod.fst).Nodup)
    (hs : dictLookup cid store = some s) (hrm : (tickSession env cid s).1 = false) :
    dictLookup cid (update_leaderboards env store).store = some s := by
  have hmem : (cid, s) ∈ store := dictLookup_mem hs
  rw [update_leaderboards]
  simp only
  rw [← hs]
  apply dictLookup_filter_keep
  intro v
  simp only [decide_eq_true_eq]
  intro hin
  rcases List.mem_map.mp hin with ⟨r, hrf, hr1⟩
  rcases List.mem_filter.mp hrf with ⟨hrres, hflag⟩
  rcases List.mem_map.mp hrres with ⟨p, hpmem, hpr⟩
  have hp1 : p.1 = cid := by rw [← hr1, ← hpr]
  have hps : p.2 = s := by
    apply keys_nodup_mem_unique hnd _ hmem
    rw [← hp1]
    exact hpmem
  rw [← hpr] at hflag
  simp only at hflag
  rw [hp1, hps] at hflag
  rw [hrm] at hflag
  cases hflag

theorem pyFloatGet_ok_of_ne {e : Entry} (h : e.deposited ≠ FieldVal.nonNumeric) :
    ∃ v, pyFloatGet e.deposited = .ok v := by
  cases hd : e.deposited with
  | missing => exact ⟨0, rfl⟩
  | num q => exact ⟨q, rfl⟩
  | nonNumeric => exact absurd hd h

/-! ## Claims -/

/-- C2: a session whose `end_date` lies in the past at the start of a tick is
transitioned exactly once — the per-session pass marks it for removal and makes
the single best-effort terminal-notice edit — and it is gone from the store
already when the tick finishes (hence by the following tick); the outcome of
the terminal edit never influences the result (its failure is non-fatal). -/
theorem c2_expired_session_removed (env : TickEnv) (store : Store) (cid : ℕ) (s : Session)
    (hs : dictLookup cid store = some s) (hch : env.channelExists cid = true)
    (hexp : s.endDate < env.now) :
    tickSession env cid s = (true, [(s.messageId, .endedNotice)]) ∧
    dictLookup cid (update_leaderboards env store).store = none ∧
    (update_leaderboards env store).posts = [] ∧
    ∀ f, update_leaderboards { env with editOk := f } store = update_leaderboards env store := by
  have htick : tickSession env cid s = (true, [(s.messageId, .endedNotice)]) := by
    rw [tickSession]
    simp [hch, hexp]
  exact ⟨htick, update_leaderboards_removes hs (by rw [htick]), rfl, fun f => rfl⟩

theorem c2_witness :
    demoSession.endDate < c2Env.now ∧
    tickSession c2Env 1 demoSession = (true, [(5, .endedNotice)]) ∧
    dictLookup 1 (update_leaderboards c2Env demoStore).store = none :=
  ⟨by decide,
    (c2_expired_session_removed c2Env demoStore 1 demoSession rfl rfl (by decide)).1,
    (c2_expired_session_removed c2Env demoStore 1 demoSession rfl rfl (by decide)).2.1⟩

/-- C8: when the fetch for a session fails during a tick, the per-session pass
makes no edit attempt and does not mark the session for removal; the session
survives the tick with its tuple (artifact reference, window, end date, days)
unchanged, nothing is posted, and no failure bookkeeping of any kind happens
(the resulting state is identical for every edit-outcome oracle). -/
theorem c8_fetch_failure_skips (env : TickEnv) (store : Store) (cid : ℕ) (s : Session)
    (hnd : (store.map Prod.fst).Nodup)
    (hs : dictLookup cid store = some s) (hch : env.channelExists cid = true)
    (hexp : ¬ s.endDate < env.now)
    (hfetch : fetch_affiliate_data env.api s.startTime s.endTime = none) :
    tickSession env cid s = (false, []) ∧
    dictLookup cid (update_leaderboards env store).store = some s ∧
    (update_leaderboards env store).posts = [] ∧
    ∀ f, update_leaderboards { env with editOk := f } store = update_leaderboards env store := by
  have htick : tickSession env cid s = (false, []) := by
    rw [tickSession]
    simp [hch, hexp, hfetch]
  exact ⟨htick, update_leaderboards_keeps hnd hs (by rw [htick]), rfl, fun f => rfl⟩

theorem c8_witness :
    ¬ demoSession.endDate < c8Env.now ∧
    tickSession c8Env 1 demoSession = (false, []) ∧
    dictLookup 1 (update_leaderboards c8Env demoStore).store = some demoSession :=
  ⟨by decide,
    (c8_fetch_failure_skips c8Env demoStore 1 demoSession (by decide) rfl rfl
      (by decide) rfl).1,
    (c8_fetch_failure_skips c8Env demoStore 1 demoSession (by decide) rfl rfl
      (by decide) rfl).2.1⟩

/-- C1 (counterexample): one tick over a live session whose fetch succeeds and
whose every `message.edit` fails transiently (`c1Env.editOk` is constantly
`false`). The claim predicts 3 recorded update attempts followed by recreation
(a new post); the code makes exactly 1 attempt and posts nothing. -/
theorem c1_counterexample :
    (update_leaderboards c1Env demoStore).edits.length = 1 ∧
    (update_leaderboards c1Env demoStore).posts = [] ∧
    ¬ ((update_leaderboards c1Env demoStore).edits.length = 3 ∧
       ¬ (update_leaderboards c1Env demoStore).posts = []) := by
  decide

/-- C1 (amended): on a tick where the fetch succeeds, the scheduler makes
exactly one update-in-place attempt on the session's artifact, performs no
retry and no recreation (nothing is ever posted by the update loop), keeps the
session unchanged in the store, and none of this depends on whether the edit
succeeds or fails. -/
theorem c1_single_attempt_no_recreation (env : TickEnv) (store : Store) (cid : ℕ)
    (s : Session) (entries : List Entry)
    (hnd : (store.map Prod.fst).Nodup)
    (hs : dictLookup cid store = some s) (hch : env.channelExists cid = true)
    (hexp : ¬ s.endDate < env.now)
    (hfetch : fetch_affiliate_data env.api s.startTime s.endTime = some entries) :
    (∃ e, tickSession env cid s = (false, [(s.messageId, .embedPayload e)])) ∧
    (tickSession env cid s).2.length = 1 ∧
    dictLookup cid (update_leaderboards env store).store = some s ∧
    (update_leaderboards env store).posts = [] ∧
    ∀ f, update_leaderboards { env with editOk := f } store = update_leaderboards env store := by
  obtain ⟨e, he⟩ := create_leaderboard_embed_ok hfetch
  have htick : tickSession env cid s = (false, [(s.messageId, .embedPayload e)]) := by
    rw [tickSession]
    simp [hch, hexp, hfetch, he]
  refine ⟨⟨e, htick⟩, by rw [htick]; rfl, ?_, rfl, fun f => rfl⟩
  exact update_leaderboards_keeps hnd hs (by rw [htick])

theorem c1_witness :
    fetch_affiliate_data c1Env.api demoSession.startTime demoSession.endTime =
      some [bobEntry] ∧
    (tickSession c1Env 1 demoSession).2.length = 1 ∧
    dictLookup 1 (update_leaderboards c1Env demoStore).store = some demoSession :=
  ⟨by decide,
    (c1_single_attempt_no_recreation c1Env demoStore 1 demoSession [bobEntry]
      (by decide) rfl rfl (by decide) (by decide)).2.1,
    (c1_single_attempt_no_recreation c1Env demoStore 1 demoSession [bobEntry]
      (by decide) rfl rfl (by decide) (by decide)).2.2.1⟩

/-- C4 (counterexample): on the claim's own tie scenario `{x: 10, y: 10}`
(inserted x first) the ranked output is `[x, y]`, which is **not** strictly
descending — the two adjacent metrics are equal — so "strictly descending"
is false whenever a tie is ranked. -/
theorem c4_counterexample :
    pyTop10 (fun p : String × ℚ => p.2) [("x", 10), ("y", 10)] =
      [("x", 10), ("y", 10)] ∧
    ¬ List.Pairwise (fun a b : String × ℚ => b.2 < a.2)
      (pyTop10 (fun p : String × ℚ => p.2) [("x", 10), ("y", 10)]) := by
  decide

/-- C4 (amended): for every aggregated mapping, ranking returns at most 10
(subject, stat) pairs in non-increasing (descending, ties allowed) order of
the metric, and is stable on ties under first-seen order: for the two tied
subjects `{x: 10, y: 10}` inserted x first, the output is `[x, y]`. -/
theorem c4_rank_top10_nonincreasing (stats : List (String × ℚ)) :
    (pyTop10 (fun p => p.2) stats).length ≤ 10 ∧
    List.Pairwise (fun a b : String × ℚ => b.2 ≤ a.2) (pyTop10 (fun p => p.2) stats) ∧
    pyTop10 (fun p : String × ℚ => p.2) [("x", 10), ("y", 10)] =
      [("x", 10), ("y", 10)] := by
  refine ⟨?_, ?_, by decide⟩
  · rw [pyTop10, List.length_take]
    exact min_le_left _ _
  · haveI : IsTotal (String × ℚ) (fun a b => b.2 ≤ a.2) := ⟨fun a b => le_total b.2 a.2⟩
    haveI : IsTrans (String × ℚ) (fun a b => b.2 ≤ a.2) :=
      ⟨fun a b c h1 h2 => le_trans h2 h1⟩
    have hsorted :=
      List.sorted_insertionSort (fun a b : String × ℚ => b.2 ≤ a.2) stats
    exact List.Pairwise.sublist (List.take_sublist 10 _) hsorted

/-- C3 (counterexample): for the scenario entries
`[{alice, wager: 100, deposit: 0}, {bob, wager: 50, deposit: 20}]` aggregation
yields only bob, but the totals the code displays are Total Deposits = 20 and
Total Tickets = 2 — there is no wager total, and no displayed total equals the
claimed 50 (the `wagered` field is never read by the code). -/
theorem c3_counterexample :
    user_stats_tickets c3Entries = .ok [("bob", ⟨20, 2⟩)] ∧
    create_tickets_embed c3Entries = .ok (.ranked 20 2 [("bob", ⟨20, 2⟩)]) ∧
    total_deposits [("bob", ⟨20, 2⟩)] = 20 ∧
    total_tickets [("bob", ⟨20, 2⟩)] = 2 ∧
    ¬ (total_deposits [("bob", ⟨20, 2⟩)] = 50 ∨
       total_tickets [("bob", ⟨20, 2⟩)] = 50) := by
  have hstats : user_stats_tickets c3Entries = .ok [("bob", ⟨20, 2⟩)] := by
    rw [user_stats_tickets]
    simp only [c3Entries, aliceEntry, bobEntry, aggLoopT, pyFloatGet, pyName,
      dictSet, ticketsOf]
    norm_num [Rat.floor_def']
  have hdep : total_deposits [("bob", ⟨20, 2⟩)] = 20 := by
    simp [total_deposits]
  have htick : total_tickets [("bob", ⟨20, 2⟩)] = 2 := by
    simp [total_tickets]
  refine ⟨hstats, ?_, hdep, htick, ?_⟩
  · rw [create_tickets_embed, hstats]
    simp only [List.cons_ne_self, if_false, reduceCtorEq]
    rw [hdep, htick]
    rfl
  · rw [hdep, htick]
    norm_num

/-- C3 (amended): aggregation excludes each entry whose deposit is not
strictly positive from both the ranking and the totals (the user-stats map —
and hence the embed built from it — is unchanged by pre-filtering the entries
to the positive-deposit ones); for the scenario entries, aggregation yields
only bob and the displayed totals are deposits 20 and tickets 2 (the code
computes no wager total: the `wagered` field is never read). -/
theorem c3_filter_excludes_nonpositive (entries : List Entry)
    (h : ∀ e ∈ entries, e.deposited ≠ FieldVal.nonNumeric) :
    user_stats_tickets entries =
      user_stats_tickets (entries.filter fun e => decide (0 < depositedVal e)) ∧
    create_tickets_embed entries =
      create_tickets_embed (entries.filter fun e => decide (0 < depositedVal e)) ∧
    user_stats_tickets c3Entries = .ok [("bob", ⟨20, 2⟩)] ∧
    create_tickets_embed c3Entries = .ok (.ranked 20 2 [("bob", ⟨20, 2⟩)]) := by
  have hwf : ∀ e ∈ entries, ∃ v, pyFloatGet e.deposited = .ok v :=
    fun e he => pyFloatGet_ok_of_ne (h e he)
  have hagg := aggLoopT_filter entries [] hwf
  have hstats : user_stats_tickets c3Entries = .ok [("bob", ⟨20, 2⟩)] := by
    rw [user_stats_tickets]
    simp only [c3Entries, aliceEntry, bobEntry, aggLoopT, pyFloatGet, pyName,
      dictSet, ticketsOf]
    norm_num [Rat.floor_def']
  refine ⟨hagg, ?_, hstats, ?_⟩
  · rw [create_tickets_embed, create_tickets_embed, user_stats_tickets,
      user_stats_tickets, hagg]
  · rw [create_tickets_embed, hstats]
    have hdep : total_deposits [("bob", ⟨20, 2⟩)] = 20 := by simp [total_deposits]
    have htick : total_tickets [("bob", ⟨20, 2⟩)] = 2 := by simp [total_tickets]
    simp only [List.cons_ne_self, if_false, reduceCtorEq]
    rw [hdep, htick]
    rfl

theorem c3_witness :
    user_stats_tickets c3Entries =
      user_stats_tickets (c3Entries.filter fun e => decide (0 < depositedVal e)) ∧
    user_stats_tickets c3Entries = .ok [("bob", ⟨20, 2⟩)] :=
  ⟨(c3_filter_excludes_nonpositive c3Entries (by decide)).1,
    (c3_filter_excludes_nonpositive c3Entries (by decide)).2.2.1⟩

/-- C5: starting a leaderboard (of either kind) in a channel that already has
an active session is rejected with the already-active reply; the store is
returned unchanged (so the existing session's artifact reference, window, end
date and days are untouched), no fetch happens and nothing is posted. -/
theorem c5_duplicate_rejected (store : Store) (cid : ℕ) (s : Session) (days nowMs : ℤ)
    (api : ℤ → ℤ → Option (List Entry)) (msgId : ℕ)
    (hdays : ¬ (days ≤ 0 ∨ 30 < days))
    (hs : dictLookup cid store = some s) :
    leaderboard store cid days nowMs api msgId = ⟨.alreadyActive, store, 0, []⟩ ∧
    tickets store cid days api msgId = ⟨.alreadyActive, store, 0, []⟩ ∧
    dictLookup cid (leaderboard store cid days nowMs api msgId).store = some s ∧
    dictLookup cid (tickets store cid days api msgId).store = some s := by
  have h1 : leaderboard store cid days nowMs api msgId = ⟨.alreadyActive, store, 0, []⟩ := by
    rw [leaderboard]
    simp [hdays, hs]
  have h2 : tickets store cid days api msgId = ⟨.alreadyActive, store, 0, []⟩ := by
    rw [tickets]
    simp [hdays, hs]
  exact ⟨h1, h2, by rw [h1]; exact hs, by rw [h2]; exact hs⟩

theorem c5_witness :
    dictLookup 1 demoStore = some demoSession ∧
    leaderboard demoStore 1 7 0 apiNone 9 = ⟨.alreadyActive, demoStore, 0, []⟩ ∧
    tickets demoStore 1 7 apiNone 9 = ⟨.alreadyActive, demoStore, 0, []⟩ :=
  ⟨rfl,
    (c5_duplicate_rejected demoStore 1 demoSession 7 0 apiNone 9 (by decide) rfl).1,
    (c5_duplicate_rejected demoStore 1 demoSession 7 0 apiNone 9 (by decide) rfl).2.1⟩

/-- C7: a days argument outside [1, 30] is rejected by both session-start
commands before anything else happens: the reply is the validation message,
the store is unchanged, the fetch count is 0 and nothing is posted —
regardless of the store contents and of the fetch oracle. -/
theorem c7_days_guard (store : Store) (cid : ℕ) (days nowMs : ℤ)
    (api : ℤ → ℤ → Option (List Entry)) (msgId : ℕ)
    (hdays : days ≤ 0 ∨ 30 < days) :
    leaderboard store cid days nowMs api msgId = ⟨.invalidDays, store, 0, []⟩ ∧
    tickets store cid days api msgId = ⟨.invalidDays, store, 0, []⟩ := by
  constructor
  · rw [leaderboard, if_pos hdays]
  · rw [tickets, if_pos hdays]

theorem c7_witness :
    ((35 : ℤ) ≤ 0 ∨ 30 < (35 : ℤ)) ∧
    leaderboard [] 1 35 0 apiNone 9 = ⟨.invalidDays, [], 0, []⟩ ∧
    tickets [] 1 35 apiNone 9 = ⟨.invalidDays, [], 0, []⟩ :=
  ⟨by decide,
    (c7_days_guard [] 1 35 0 apiNone 9 (by decide)).1,
    (c7_days_guard [] 1 35 0 apiNone 9 (by decide)).2⟩

/-- C9: when the initial fetch during session creation fails (for either
command), the command replies with the fetch-failure message, the store is
returned exactly as it was — no session tuple and no artifact reference is
recorded — and nothing is posted to the channel. -/
theorem c9_no_partial_state (store : Store) (cid : ℕ) (days nowMs : ℤ)
    (api : ℤ → ℤ → Option (List Entry)) (msgId : ℕ)
    (hdays : ¬ (days ≤ 0 ∨ 30 < days))
    (habs : dictLookup cid store = none)
    (hf1 : fetch_affiliate_data api nowMs (nowMs + days * msPerDay) = none)
    (hf2 : fetch_affiliate_data api ticketsStartMs ticketsEndMs = none) :
    leaderboard store cid days nowMs api msgId = ⟨.fetchFailed, store, 1, []⟩ ∧
    tickets store cid days api msgId = ⟨.fetchFailed, store, 1, []⟩ := by
  constructor
  · rw [leaderboard]
    simp [hdays, habs, hf1]
  · rw [tickets]
    simp [hdays, habs, hf2]

theorem c9_witness :
    fetch_affiliate_data apiNone 0 (0 + 7 * msPerDay) = none ∧
    leaderboard [] 1 7 0 apiNone 9 = ⟨.fetchFailed, [], 1, []⟩ ∧
    tickets [] 1 7 apiNone 9 = ⟨.fetchFailed, [], 1, []⟩ :=
  ⟨rfl,
    (c9_no_partial_state [] 1 7 0 apiNone 9 (by decide) rfl rfl rfl).1,
    (c9_no_partial_state [] 1 7 0 apiNone 9 (by decide) rfl rfl rfl).2⟩

/-- C6 (counterexample): a batch holding the well-formed `bobEntry` and the
malformed `badEntry` (non-numeric `deposited`). The claim predicts the bad
record is defaulted to zero and dropped while the rest is aggregated
(`some [bobEntry]`); in the code `float()` raises, the surrounding `try`
catches it, and the whole fetch returns `None` — likewise the embed
aggregations abort with the exception instead of skipping the record. -/
theorem c6_counterexample :
    fetchFilter c6Entries = none ∧
    ¬ fetchFilter c6Entries = some [bobEntry] ∧
    user_stats_lb c6Entries = .error () ∧
    create_leaderboard_embed c6Entries = .error () ∧
    fetchFilter [bobEntry] = some [bobEntry] := by
  decide

/-- C6 (amended): an **absent** numeric field defaults to zero per-record — a
batch with no non-numeric field is filtered without aborting, entries whose
(defaulted) deposit is not positive being dropped — but a **non-numeric**
field aborts the aggregation of the whole batch: the fetch returns `None`,
losing the remaining records too. -/
theorem c6_missing_defaults_nonnumeric_aborts (entries : List Entry) :
    ((∀ e ∈ entries, e.deposited ≠ FieldVal.nonNumeric) →
      fetchFilter entries =
        some (entries.filter fun e => decide (0 < depositedVal e))) ∧
    ((∃ e ∈ entries, e.deposited = FieldVal.nonNumeric) →
      fetchFilter entries = none) ∧
    depositedVal ⟨some "dana", .missing, .missing⟩ = 0 :=
  ⟨fetchFilter_wellformed entries, fetchFilter_aborts entries, rfl⟩

theorem c6_witness :
    fetchFilter [bobEntry, aliceEntry] = some [bobEntry] ∧
    fetchFilter c6Entries = none :=
  ⟨by rw [(c6_missing_defaults_nonnumeric_aborts [bobEntry, aliceEntry]).1 (by decide)]
      decide,
    (c6_missing_defaults_nonnumeric_aborts c6Entries).2.1 ⟨badEntry, by decide, rfl⟩⟩

/-- C10: the accumulation policy is last-write-wins — for every entry
sequence, the aggregated value stored for a subject is exactly the deposit of
the last entry with that name passing the positive-deposit filter (for the
tickets variant, together with its derived ticket count), never a sum; in
particular two entries for `x` with deposits 10 then 25 aggregate to 25. -/
theorem c10_last_write_wins (entries : List Entry) (n : String)
    (dL : List (String × ℚ)) (dT : List (String × TStat))
    (hL : user_stats_lb entries = .ok dL)
    (hT : user_stats_tickets entries = .ok dT) :
    dictLookup n dL = lastPositiveDeposit entries n ∧
    dictLookup n dT =
      (lastPositiveDeposit entries n).map (fun v => ⟨v, ticketsOf v⟩) ∧
    user_stats_lb c10Entries = .ok [("x", 25)] := by
  have h1 := aggLoopLB_lookup entries [] dL n hL
  have h2 := aggLoopT_lookup entries [] dT n hT
  refine ⟨?_, ?_, by decide⟩
  · cases hlast : lastPositiveDeposit entries n with
    | some v => rw [hlast] at h1; simpa using h1
    | none => rw [hlast] at h1; simpa using h1
  · cases hlast : lastPositiveDeposit entries n with
    | some v => rw [hlast] at h2; simpa using h2
    | none => rw [hlast] at h2; simpa using h2

theorem c10_helper_tickets :
    user_stats_tickets c10Entries = .ok [("x", ⟨25, 2⟩)] := by
  rw [user_stats_tickets]
  simp only [c10Entries, aggLoopT, pyFloatGet, pyName, dictSet, ticketsOf]
  norm_num [Rat.floor_def']

theorem c10_witness :
    user_stats_lb c10Entries = .ok [("x", 25)] ∧
    dictLookup "x" [("x", (25 : ℚ))] = lastPositiveDeposit c10Entries "x" ∧
    lastPositiveDeposit c10Entries "x" = some 25 :=
  ⟨rfl,
    (c10_last_write_wins c10Entries "x" [("x", 25)] [("x", ⟨25, 2⟩)] rfl
      c10_helper_tickets).1,
    by decide⟩

end AffiliateBot
